import Mathlib

/-!
Verification of the mee6-lite Discord bot event-reaction engine (`bot.js`):
leveling/XP progression, invite-link automod, onboarding, role-menu
reconciliation, and per-guild configuration merging.  Handlers are modelled
as pure functions; the store effects they perform are returned as explicit
lists of write operations, and outbound gateway calls as explicit action
descriptors.
-/

namespace Mee6Lite

/-- `xpForNext` from bot.js: `5 * level * level + 50 * level + 100`. -/
def xpForNext (level : Nat) : Nat := 5 * level * level + 50 * level + 100

/-- The XP gain `15 + Math.floor(Math.random() * 11)` from the
messageCreate handler; `rand` stands for the drawn
`Math.floor(Math.random() * 11)`, which lies in `[0, 10]`. -/
def gainOf (rand : Nat) : Nat := 15 + rand

/-- The level-up `while` loop of the messageCreate handler:
`while (newXP >= next) { newXP -= next; level += 1; next = xpForNext(level); leveledUp = true; }`
with an explicit fuel argument.  Each iteration consumes at least
`xpForNext level ≥ 100` XP, so fuel `xp` is always sufficient;
`levelLoopF_congr` below shows the result is fuel-independent. -/
def levelLoopF : Nat → Nat → Nat → Bool → Nat × Nat × Bool
  | 0, xp, level, leveledUp => (xp, level, leveledUp)
  | fuel + 1, xp, level, leveledUp =>
    if xpForNext level ≤ xp then
      levelLoopF fuel (xp - xpForNext level) (level + 1) true
    else
      (xp, level, leveledUp)

/-- The `while` loop entered with `leveledUp = false`, returning
`(newXP, level, leveledUp)`. -/
def levelLoop (xp level : Nat) : Nat × Nat × Bool := levelLoopF xp xp level false

lemma xpForNext_ge (level : Nat) : 100 ≤ xpForNext level :=
  Nat.le_add_left 100 (5 * level * level + 50 * level)

lemma levelLoopF_congr (f1 : Nat) : ∀ (f2 xp level : Nat) (b : Bool),
    xp ≤ f1 → xp ≤ f2 → levelLoopF f1 xp level b = levelLoopF f2 xp level b := by
  induction f1 with
  | zero =>
    intro f2 xp level b h1 _
    have hx : xp = 0 := Nat.le_zero.mp h1
    subst hx
    cases f2 with
    | zero => rfl
    | succ m =>
      have ht := xpForNext_ge level
      simp only [levelLoopF]
      rw [if_neg (by omega)]
  | succ n ih =>
    intro f2 xp level b h1 h2
    cases f2 with
    | zero =>
      have hx : xp = 0 := Nat.le_zero.mp h2
      subst hx
      have ht := xpForNext_ge level
      simp only [levelLoopF]
      rw [if_neg (by omega)]
    | succ m =>
      by_cases hc : xpForNext level ≤ xp
      · have ht := xpForNext_ge level
        simp only [levelLoopF, if_pos hc]
        exact ih m (xp - xpForNext level) (level + 1) true (by omega) (by omega)
      · simp only [levelLoopF, if_neg hc]

lemma levelLoopF_indep (fuel : Nat) : ∀ (xp level : Nat) (b1 b2 : Bool),
    (levelLoopF fuel xp level b1).1 = (levelLoopF fuel xp level b2).1 ∧
    (levelLoopF fuel xp level b1).2.1 = (levelLoopF fuel xp level b2).2.1 := by
  induction fuel with
  | zero => intro xp level b1 b2; simp [levelLoopF]
  | succ n ih =>
    intro xp level b1 b2
    by_cases hc : xpForNext level ≤ xp
    · simp only [levelLoopF, if_pos hc]
      simp
    · simp only [levelLoopF, if_neg hc]
      simp

lemma levelLoopF_true (fuel : Nat) : ∀ (xp level : Nat),
    (levelLoopF fuel xp level true).2.2 = true := by
  induction fuel with
  | zero => intro xp level; simp [levelLoopF]
  | succ n ih =>
    intro xp level
    by_cases hc : xpForNext level ≤ xp
    · simp only [levelLoopF, if_pos hc]
      exact ih _ _
    · simp only [levelLoopF, if_neg hc]

/-- With sufficient fuel the loop result always lands strictly below the
threshold of the final level. -/
lemma levelLoopF_inv (fuel : Nat) : ∀ (xp level : Nat) (b : Bool), xp ≤ fuel →
    (levelLoopF fuel xp level b).1 < xpForNext (levelLoopF fuel xp level b).2.1 := by
  induction fuel with
  | zero =>
    intro xp level b h
    have hx : xp = 0 := Nat.le_zero.mp h
    subst hx
    have := xpForNext_ge level
    simp [levelLoopF]
    omega
  | succ n ih =>
    intro xp level b h
    by_cases hc : xpForNext level ≤ xp
    · have ht := xpForNext_ge level
      simp only [levelLoopF, if_pos hc]
      exact ih (xp - xpForNext level) (level + 1) true (by omega)
    · simp only [levelLoopF, if_neg hc]
      omega

/-- ASCII lowercasing of one character, modelling the case-insensitivity of
the `/i` regex flag over the (all-ASCII) invite patterns. -/
def lowerChar (c : Char) : Char :=
  if 65 ≤ c.toNat ∧ c.toNat ≤ 90 then Char.ofNat (c.toNat + 32) else c

def lowerList (l : List Char) : List Char := l.map lowerChar

def isPrefixL : List Char → List Char → Bool
  | [], _ => true
  | _ :: _, [] => false
  | a :: as, b :: bs => a == b && isPrefixL as bs

def isInfixL (p : List Char) : List Char → Bool
  | [] => isPrefixL p []
  | b :: bs => isPrefixL p (b :: bs) || isInfixL p bs

/-- The automod invite test from bot.js:
`/(discord\.gg\/|discord\.com\/invite\/)/i.test(message.content)` —
a case-insensitive substring match for either of the two invite URL forms. -/
def isInviteText (content : String) : Bool :=
  isInfixL ("discord.gg/".data) (lowerList content.data) ||
  isInfixL ("discord.com/invite/".data) (lowerList content.data)

/-- One row of the `users` table: `xp`, `level`, `last_xp_ts`
(`guild_id`/`user_id` key the row; every write issued by the message
handler targets the `(message.guild.id, message.author.id)` row, so the
key columns are left implicit here). -/
structure UserRec where
  xp : Nat
  level : Nat
  last_xp_ts : Int
deriving DecidableEq

/-- One row of the `guild_config` table, in schema column order.
`leveling_enabled` is the SQLite INTEGER column (default 1). -/
structure GuildConfig where
  welcome_channel_id : Option String
  welcome_message : Option String
  autorole_id : Option String
  leveling_enabled : Int
  log_channel_id : Option String
deriving DecidableEq

/-- External guild state the handlers consult through the gateway caches:
`channelIsText cid` models `guild.channels.cache.get(cid)?.isTextBased()`,
`roleExists`/`roleEditable` model `guild.roles.cache.get(rid)` and
`role.editable`, and `systemChannelId` models `guild.systemChannelId`. -/
structure GuildEnv where
  channelIsText : String → Bool
  roleExists : String → Bool
  roleEditable : String → Bool
  systemChannelId : Option String

/-- The fields of a `messageCreate` event the handler reads. -/
structure Message where
  guildId : Option String
  authorIsBot : Bool
  authorId : String
  content : String
  memberJoinedTimestamp : Int
  memberHasManageMessages : Bool

/-- JavaScript truthiness of a nullable string (`x || null` and `x ? _ : _`):
`null`/`undefined` and the empty string are falsy. -/
def jsTruthy : Option String → Option String
  | none => none
  | some s => if s = "" then none else some s

/-- Outbound gateway calls the event handlers issue.  `contained` records
whether the call site wraps the action in its own `.catch(() => {})`. -/
inductive ActionKind where
  | deleteMsg
  | sendWarning
  | sendLog
  | addAutorole
  | sendWelcome
  | sendLevelUp
deriving DecidableEq

structure Action where
  kind : ActionKind
  contained : Bool
deriving DecidableEq

/-- The two prepared statements the leveling path runs, in order:
`upsertUser` (on conflict updates only `xp` and `level`, inserting
`last_xp_ts` only for a fresh row) and `setLastXP`. -/
inductive StoreWrite where
  | upsertUser (xp level : Nat) (last_xp_ts : Int)
  | setLastXP (ts : Int)
deriving DecidableEq

structure MsgResult where
  actions : List Action
  writes : List StoreWrite
deriving DecidableEq

def sevenDaysMs : Int := 7 * 24 * 60 * 60 * 1000

def cooldownMs : Int := 60 * 1000

/-- The automod condition of the messageCreate handler:
`isInvite && joinedAgoMs < sevenDays && !member.permissions.has(ManageMessages)`. -/
def automodBlockCond (msg : Message) (now : Int) : Bool :=
  isInviteText msg.content &&
  decide (now - msg.memberJoinedTimestamp < sevenDaysMs) &&
  !msg.memberHasManageMessages

/-- The leveling gate `!cfg || cfg.leveling_enabled !== 1` of the
messageCreate handler: true (NoOp) when no config row exists, and when a
row exists whose `leveling_enabled` differs from 1. -/
def levelingDisabled (cfgOf : Option GuildConfig) : Bool :=
  match cfgOf with
  | none => true
  | some cfg => decide (cfg.leveling_enabled ≠ 1)

/-- The `messageCreate` handler of bot.js.  `cfgOf` is the
`getCfg.get(message.guild.id)` result, `recOf` the
`getUser.get(guild, author)` result, `now` is `Date.now()` and `rand` is
the drawn `Math.floor(Math.random() * 11)`. -/
def messageCreate (env : GuildEnv) (cfgOf : Option GuildConfig)
    (recOf : Option UserRec) (msg : Message) (now : Int) (rand : Nat) :
    MsgResult :=
  if msg.guildId.isNone || msg.authorIsBot then ⟨[], []⟩
  else if automodBlockCond msg now then
    ⟨⟨.deleteMsg, true⟩ :: ⟨.sendWarning, true⟩ ::
      (match jsTruthy (cfgOf.bind fun c => c.log_channel_id) with
        | some lid => if env.channelIsText lid then [⟨.sendLog, false⟩] else []
        | none => []), []⟩
  else if levelingDisabled cfgOf then ⟨[], []⟩
  else if now - (recOf.getD ⟨0, 0, 0⟩).last_xp_ts < cooldownMs then ⟨[], []⟩
  else
    ⟨(if (levelLoop ((recOf.getD ⟨0, 0, 0⟩).xp + gainOf rand)
            (recOf.getD ⟨0, 0, 0⟩).level).2.2 then
        [⟨.sendLevelUp, true⟩] else []),
     [StoreWrite.upsertUser
        (levelLoop ((recOf.getD ⟨0, 0, 0⟩).xp + gainOf rand)
          (recOf.getD ⟨0, 0, 0⟩).level).1
        (levelLoop ((recOf.getD ⟨0, 0, 0⟩).xp + gainOf rand)
          (recOf.getD ⟨0, 0, 0⟩).level).2.1
        (recOf.getD ⟨0, 0, 0⟩).last_xp_ts,
      StoreWrite.setLastXP now]⟩

/-- Effect of one prepared statement on the member row it targets.
`upsertUser` inserts the full row when absent, and on conflict updates only
`xp` and `level`; `setLastXP` is an UPDATE, a no-op on an absent row. -/
def applyWrite (st : Option UserRec) : StoreWrite → Option UserRec
  | .upsertUser xp level ts =>
    match st with
    | none => some ⟨xp, level, ts⟩
    | some r => some ⟨xp, level, r.last_xp_ts⟩
  | .setLastXP ts =>
    match st with
    | none => none
    | some r => some ⟨r.xp, r.level, ts⟩

/-- One message event applied to the member row: run the handler, then
apply its store writes in order. -/
def stepMsg (env : GuildEnv) (cfgOf : Option GuildConfig) (msg : Message)
    (st : Option UserRec) (ev : Int × Nat) : Option UserRec :=
  ((messageCreate env cfgOf st msg ev.1 ev.2).writes).foldl applyWrite st

/-- A sequence of message events, each given as `(now, rand)`. -/
def runMsgs (env : GuildEnv) (cfgOf : Option GuildConfig) (msg : Message)
    (evs : List (Int × Nat)) (st : Option UserRec) : Option UserRec :=
  evs.foldl (stepMsg env cfgOf msg) st

/-- The `guildMemberAdd` handler of bot.js, as the ordered list of outbound
actions it issues: autorole (`member.roles.add(role).catch(() => {})`),
welcome message (`channel.send(...).catch(() => {})`), and the audit log
line (`log.send(...)`, issued without a `.catch`). -/
def guildMemberAddActions (env : GuildEnv) (cfgOf : Option GuildConfig) :
    List Action :=
  let autoroleActs : List Action :=
    match jsTruthy (cfgOf.bind fun c => c.autorole_id) with
    | some rid =>
      if env.roleExists rid && env.roleEditable rid then [⟨.addAutorole, true⟩]
      else []
    | none => []
  let channelId : Option String :=
    match jsTruthy (cfgOf.bind fun c => c.welcome_channel_id) with
    | some cid => some cid
    | none => env.systemChannelId
  let welcomeActs : List Action :=
    match channelId with
    | some cid => if env.channelIsText cid then [⟨.sendWelcome, true⟩] else []
    | none => []
  let logActs : List Action :=
    match jsTruthy (cfgOf.bind fun c => c.log_channel_id) with
    | some lid => if env.channelIsText lid then [⟨.sendLog, false⟩] else []
    | none => []
  autoroleActs ++ welcomeActs ++ logActs

/-- `getCfg.get(guildId)?.field || null` for a nullable string column. -/
def cfgField (store : Option GuildConfig) (f : GuildConfig → Option String) :
    Option String :=
  jsTruthy (store.bind f)

/-- `getCfg.get(guildId)?.leveling_enabled ?? 1` (nullish coalescing: the
stored value is kept even when it is 0). -/
def cfgLeveling (store : Option GuildConfig) : Int :=
  (store.map fun c => c.leveling_enabled).getD 1

/-- `handleSetWelcome`: overlay `welcome_channel_id`/`welcome_message` onto
the prior record and upsert the full row. -/
def handleSetWelcome (store : Option GuildConfig) (channelId msgText : String) :
    GuildConfig where
  welcome_channel_id := some channelId
  welcome_message := some msgText
  autorole_id := cfgField store fun c => c.autorole_id
  leveling_enabled := cfgLeveling store
  log_channel_id := cfgField store fun c => c.log_channel_id

/-- `handleSetAutorole`: overlay `autorole_id` onto the prior record. -/
def handleSetAutorole (store : Option GuildConfig) (roleId : String) :
    GuildConfig where
  welcome_channel_id := cfgField store fun c => c.welcome_channel_id
  welcome_message := cfgField store fun c => c.welcome_message
  autorole_id := some roleId
  leveling_enabled := cfgLeveling store
  log_channel_id := cfgField store fun c => c.log_channel_id

/-- `handleToggleLeveling`: overlay `leveling_enabled = enabled ? 1 : 0`. -/
def handleToggleLeveling (store : Option GuildConfig) (enabled : Bool) :
    GuildConfig where
  welcome_channel_id := cfgField store fun c => c.welcome_channel_id
  welcome_message := cfgField store fun c => c.welcome_message
  autorole_id := cfgField store fun c => c.autorole_id
  leveling_enabled := if enabled then 1 else 0
  log_channel_id := cfgField store fun c => c.log_channel_id

/-- `handleSetLog`: overlay `log_channel_id` onto the prior record. -/
def handleSetLog (store : Option GuildConfig) (channelId : String) :
    GuildConfig where
  welcome_channel_id := cfgField store fun c => c.welcome_channel_id
  welcome_message := cfgField store fun c => c.welcome_message
  autorole_id := cfgField store fun c => c.autorole_id
  leveling_enabled := cfgLeveling store
  log_channel_id := some channelId

/-- `roleIds.filter(rid => interaction.guild.roles.cache.get(rid)?.editable)`:
the menu candidates the automation may currently assign. -/
def manageableOf (roleIds : List String) (editable : String → Bool) :
    List String :=
  roleIds.filter editable

/-- The role-menu selection branch of the interactionCreate handler:
`toRemove = member.roles.cache.filter(r => manageable.includes(r.id))`,
then `member.roles.remove(toRemove)` followed by
`member.roles.add(selected)` — `selected` is passed to the add action
unfiltered. -/
structure MenuResult where
  toRemove : Finset String
  toAdd : List String

def roleMenuSelect (roleIds : List String) (editable : String → Bool)
    (memberRoles : Finset String) (selected : List String) : MenuResult where
  toRemove := memberRoles.filter fun r => r ∈ manageableOf roleIds editable
  toAdd := selected

/-- The member's role set after the reconciler completes: the remove action
is applied first, then the add action. -/
def menuFinalRoles (roleIds : List String) (editable : String → Bool)
    (memberRoles : Finset String) (selected : List String) : Finset String :=
  (memberRoles \ (roleMenuSelect roleIds editable memberRoles selected).toRemove) ∪
    (roleMenuSelect roleIds editable memberRoles selected).toAdd.toFinset

/-- A guild environment in which every channel is a text channel and every
role exists and is editable, with no system channel. -/
def envAll : GuildEnv := ⟨fun _ => true, fun _ => true, fun _ => true, none⟩

/-- A config row with only the default leveling flag set. -/
def cfgEnabled : GuildConfig := ⟨none, none, none, 1, none⟩

/-- A fully populated config row. -/
def cfgFull : GuildConfig := ⟨some "W", some "hi", some "R", 1, some "L"⟩

/-- An ordinary guild message from a human member who joined at time 0 and
holds no ManageMessages permission. -/
def msgPlain : Message := ⟨some "g", false, "u", "hi", 0, false⟩

/-- The same member posting `discord.gg/abc`. -/
def msgInvite : Message := ⟨some "g", false, "u", "discord.gg/abc", 0, false⟩

/-- The handler blocked the message: its action list contains the
`message.delete()` call. -/
def blocksMessage (res : MsgResult) : Bool :=
  res.actions.any fun a => a.kind == ActionKind.deleteMsg

/-- For a guild message from a non-bot author, the handler issues a delete
exactly when the automod condition holds: no other branch deletes. -/
lemma blocksMessage_eq (env : GuildEnv) (cfgOf : Option GuildConfig)
    (recOf : Option UserRec) (msg : Message) (now : Int) (rand : Nat)
    (hg : msg.guildId.isNone = false) (hb : msg.authorIsBot = false) :
    blocksMessage (messageCreate env cfgOf recOf msg now rand) =
      automodBlockCond msg now := by
  unfold messageCreate
  rw [hg, hb]
  rw [if_neg (by decide)]
  cases hc : automodBlockCond msg now with
  | true =>
    simp [blocksMessage]
  | false =>
    rw [if_neg (by decide)]
    unfold blocksMessage
    split
    · simp
    · split
      · simp
      · split <;> simp

/-- The `users`-row invariant: stored `xp` is strictly below the current
level's threshold. -/
def recInv (r : UserRec) : Prop := r.xp < xpForNext r.level

/-- C1 (counterexample): a community with no configuration record receives
a qualifying message (non-bot guild message, no automod block, cooldown
long expired), yet the Leveling Engine performs no store write at all — it
NoOps instead of granting XP, refuting the claim that a missing record is
treated as leveling-enabled. -/
theorem c1_counterexample :
    msgPlain.authorIsBot = false ∧ msgPlain.guildId.isNone = false ∧
    automodBlockCond msgPlain 100000 = false ∧
    cooldownMs ≤ (100000 : Int) - ((none : Option UserRec).getD ⟨0, 0, 0⟩).last_xp_ts ∧
    (messageCreate envAll none none msgPlain 100000 0).writes = [] ∧
    (messageCreate envAll none none msgPlain 100000 0).actions = [] := by
  decide

/-- C1 (amended): the Leveling Engine grants XP only when a configuration
record exists with `leveling_enabled = 1`; a community with no record NoOps
exactly like one with the flag explicitly off.  For an existing record, NoOp
on account of the flag occurs exactly when `leveling_enabled ≠ 1`. -/
theorem c1_amended (env : GuildEnv) (cfgOf : Option GuildConfig)
    (recOf : Option UserRec) (msg : Message) (now : Int) (rand : Nat) :
    (cfgOf = none → levelingDisabled cfgOf = true) ∧
    (∀ cfg, cfgOf = some cfg →
      (levelingDisabled cfgOf = true ↔ cfg.leveling_enabled ≠ 1)) ∧
    (levelingDisabled cfgOf = true →
      (messageCreate env cfgOf recOf msg now rand).writes = []) ∧
    (levelingDisabled cfgOf = false →
      msg.guildId.isNone = false → msg.authorIsBot = false →
      automodBlockCond msg now = false →
      cooldownMs ≤ now - (recOf.getD ⟨0, 0, 0⟩).last_xp_ts →
      (messageCreate env cfgOf recOf msg now rand).writes ≠ []) := by
  refine ⟨?_, ?_, ?_, ?_⟩
  · rintro rfl; rfl
  · rintro cfg rfl
    simp [levelingDisabled]
  · intro hd
    simp [messageCreate, hd, apply_ite]
  · intro hd hg hb hm hcd
    unfold messageCreate
    rw [hg, hb, if_neg (by decide), hm, if_neg (by decide), hd,
      if_neg (by decide), if_neg (by omega)]
    simp

/-- C1 (witness): with no configuration record a qualifying message writes
nothing; with a record whose `leveling_enabled` is 1 the same message
writes. -/
theorem c1_witness :
    (messageCreate envAll none none msgPlain 100000 0).writes = [] ∧
    (messageCreate envAll (some cfgEnabled) none msgPlain 100000 0).writes ≠ [] :=
  ⟨(c1_amended envAll none none msgPlain 100000 0).2.2.1 rfl,
   (c1_amended envAll (some cfgEnabled) none msgPlain 100000 0).2.2.2 rfl rfl
     rfl (by decide) (by decide)⟩

/-- C2 (counterexample): a qualifying message performs two Progression
Store writes (`upsertUser` then `setLastXP`), not the claimed single atomic
write. -/
theorem c2_counterexample :
    automodBlockCond msgPlain 100000 = false ∧
    cooldownMs ≤ (100000 : Int) - ((none : Option UserRec).getD ⟨0, 0, 0⟩).last_xp_ts ∧
    (messageCreate envAll (some cfgEnabled) none msgPlain 100000 5).writes.length = 2 ∧
    ¬ (messageCreate envAll (some cfgEnabled) none msgPlain 100000 5).writes.length = 1 := by
  decide

/-- C2 (amended): within the cooldown window the engine performs zero store
writes (the row, including `last_xp_ts`, is untouched); otherwise it
performs exactly two writes in order — `upsertUser` persisting the new
`(xp, level)` while keeping the old timestamp, then `setLastXP` stamping
`now` — whose combined effect on the row is the new `(xp, level)` together
with `last_xp_ts = now`. -/
theorem c2_amended (env : GuildEnv) (cfgOf : Option GuildConfig)
    (recOf : Option UserRec) (msg : Message) (now : Int) (rand : Nat)
    (hg : msg.guildId.isNone = false) (hb : msg.authorIsBot = false)
    (hm : automodBlockCond msg now = false)
    (hd : levelingDisabled cfgOf = false) :
    (now - (recOf.getD ⟨0, 0, 0⟩).last_xp_ts < cooldownMs →
      (messageCreate env cfgOf recOf msg now rand).writes = [] ∧
      (messageCreate env cfgOf recOf msg now rand).writes.foldl applyWrite recOf
        = recOf) ∧
    (cooldownMs ≤ now - (recOf.getD ⟨0, 0, 0⟩).last_xp_ts →
      (messageCreate env cfgOf recOf msg now rand).writes =
        [StoreWrite.upsertUser
           (levelLoop ((recOf.getD ⟨0, 0, 0⟩).xp + gainOf rand)
             (recOf.getD ⟨0, 0, 0⟩).level).1
           (levelLoop ((recOf.getD ⟨0, 0, 0⟩).xp + gainOf rand)
             (recOf.getD ⟨0, 0, 0⟩).level).2.1
           (recOf.getD ⟨0, 0, 0⟩).last_xp_ts,
         StoreWrite.setLastXP now] ∧
      (messageCreate env cfgOf recOf msg now rand).writes.foldl applyWrite recOf =
        some ⟨(levelLoop ((recOf.getD ⟨0, 0, 0⟩).xp + gainOf rand)
                 (recOf.getD ⟨0, 0, 0⟩).level).1,
              (levelLoop ((recOf.getD ⟨0, 0, 0⟩).xp + gainOf rand)
                 (recOf.getD ⟨0, 0, 0⟩).level).2.1,
              now⟩) := by
  constructor
  · intro hlt
    have hw : (messageCreate env cfgOf recOf msg now rand).writes = [] := by
      unfold messageCreate
      rw [hg, hb, if_neg (by decide), hm, if_neg (by decide), hd,
        if_neg (by decide), if_pos hlt]
    exact ⟨hw, by rw [hw]; rfl⟩
  · intro hge
    have hw : (messageCreate env cfgOf recOf msg now rand).writes =
        [StoreWrite.upsertUser
           (levelLoop ((recOf.getD ⟨0, 0, 0⟩).xp + gainOf rand)
             (recOf.getD ⟨0, 0, 0⟩).level).1
           (levelLoop ((recOf.getD ⟨0, 0, 0⟩).xp + gainOf rand)
             (recOf.getD ⟨0, 0, 0⟩).level).2.1
           (recOf.getD ⟨0, 0, 0⟩).last_xp_ts,
         StoreWrite.setLastXP now] := by
      unfold messageCreate
      rw [hg, hb, if_neg (by decide), hm, if_neg (by decide), hd,
        if_neg (by decide), if_neg (by omega)]
    refine ⟨hw, ?_⟩
    rw [hw]
    cases recOf with
    | none => simp [applyWrite]
    | some r => simp [applyWrite]

/-- C2 (witness): evaluating the amended claim on a fresh member record
(gain 20 at `now = 100000`): the two writes and the combined final row. -/
theorem c2_witness :
    (messageCreate envAll (some cfgEnabled) none msgPlain 100000 5).writes =
      [StoreWrite.upsertUser 20 0 0, StoreWrite.setLastXP 100000] ∧
    (messageCreate envAll (some cfgEnabled) none msgPlain 100000 5).writes.foldl
      applyWrite none = some ⟨20, 0, 100000⟩ := by
  have h := (c2_amended envAll (some cfgEnabled) none msgPlain 100000 5 rfl rfl
    (by decide) rfl).2 (by decide)
  have e : levelLoop (((none : Option UserRec).getD ⟨0, 0, 0⟩).xp + gainOf 5)
      ((none : Option UserRec).getD ⟨0, 0, 0⟩).level = (20, 0, false) := by decide
  rw [e] at h
  simpa using h

/-- C3 (confirmed): the automod blocks (deletes) a guild message from a
non-bot member iff the text contains one of the two invite URL forms
case-insensitively, the member joined less than 7 days ago, and the member
lacks ManageMessages; the boundary is exclusive: joined exactly
`7 days - 1 ms` ago blocks, joined exactly 7 days ago allows. -/
theorem c3_automod_block_iff (env : GuildEnv) (cfgOf : Option GuildConfig)
    (recOf : Option UserRec) (now : Int) (rand : Nat) (g u content : String)
    (joined : Int) (byp : Bool) :
    (blocksMessage (messageCreate env cfgOf recOf
        ⟨some g, false, u, content, joined, byp⟩ now rand) = true ↔
      (isInviteText content = true ∧ now - joined < sevenDaysMs ∧ byp = false)) ∧
    blocksMessage (messageCreate env cfgOf recOf
      ⟨some g, false, u, "discord.gg/abc", now - (sevenDaysMs - 1), false⟩
      now rand) = true ∧
    blocksMessage (messageCreate env cfgOf recOf
      ⟨some g, false, u, "discord.gg/abc", now - sevenDaysMs, false⟩
      now rand) = false := by
  refine ⟨?_, ?_, ?_⟩
  · rw [blocksMessage_eq env cfgOf recOf
      ⟨some g, false, u, content, joined, byp⟩ now rand rfl rfl]
    unfold automodBlockCond
    simp [Bool.and_eq_true, decide_eq_true_eq, Bool.not_eq_true', and_assoc]
  · rw [blocksMessage_eq env cfgOf recOf
      ⟨some g, false, u, "discord.gg/abc", now - (sevenDaysMs - 1), false⟩
      now rand rfl rfl]
    unfold automodBlockCond
    have hi : isInviteText "discord.gg/abc" = true := by decide
    simp only [hi, Bool.true_and, Bool.not_false, Bool.and_true,
      decide_eq_true_eq]
    simp only [sevenDaysMs]
    omega
  · rw [blocksMessage_eq env cfgOf recOf
      ⟨some g, false, u, "discord.gg/abc", now - sevenDaysMs, false⟩
      now rand rfl rfl]
    unfold automodBlockCond
    simp only [Bool.and_eq_false_iff, decide_eq_false_iff_not]
    left
    right
    simp only [sevenDaysMs]
    omega

/-- C4 (confirmed): the drawn gain lies in the inclusive range `[15, 25]`;
the level-up loop leaves `(xp, level)` unchanged when `xp` is below the
threshold and otherwise rolls `threshold(level)` XP into one level step;
and from `(xp, level) = (0, 0)`, five qualifying messages each granting
exactly 20 XP (rand = 5) with no cooldown collisions reach `level = 1`,
`xp = 0` exactly at the fifth message (after four: `xp = 80`, `level = 0`). -/
theorem c4_gain_and_level_curve :
    (∀ rand, rand < 11 → 15 ≤ gainOf rand ∧ gainOf rand ≤ 25) ∧
    (∀ xp level, xp < xpForNext level → levelLoop xp level = (xp, level, false)) ∧
    (∀ xp level, xpForNext level ≤ xp →
      (levelLoop xp level).1 = (levelLoop (xp - xpForNext level) (level + 1)).1 ∧
      (levelLoop xp level).2.1 =
        (levelLoop (xp - xpForNext level) (level + 1)).2.1 ∧
      (levelLoop xp level).2.2 = true) ∧
    runMsgs envAll (some cfgEnabled) msgPlain
      [(100000, 5), (200000, 5), (300000, 5), (400000, 5)] none =
      some ⟨80, 0, 400000⟩ ∧
    runMsgs envAll (some cfgEnabled) msgPlain
      [(100000, 5), (200000, 5), (300000, 5), (400000, 5), (500000, 5)] none =
      some ⟨0, 1, 500000⟩ := by
  refine ⟨?_, ?_, ?_, by decide, by decide⟩
  · intro rand h
    unfold gainOf
    omega
  · intro xp level h
    unfold levelLoop
    cases xp with
    | zero => rfl
    | succ n =>
      simp only [levelLoopF]
      rw [if_neg (by omega)]
  · intro xp level h
    have ht := xpForNext_ge level
    obtain ⟨m, rfl⟩ : ∃ m, xp = m + 1 := ⟨xp - 1, by omega⟩
    unfold levelLoop
    simp only [levelLoopF, if_pos h]
    rw [levelLoopF_congr m (m + 1 - xpForNext level) (m + 1 - xpForNext level)
      (level + 1) true (by omega) (by omega)]
    exact ⟨(levelLoopF_indep _ _ _ true false).1,
      (levelLoopF_indep _ _ _ true false).2, levelLoopF_true _ _ _⟩

/-- C4 (witness): the range bound at rand = 5; the loop at `xp = 120`,
`level = 1` (below threshold 155); and one rollover step at `xp = 150`,
`level = 0`. -/
theorem c4_witness :
    (15 ≤ gainOf 5 ∧ gainOf 5 ≤ 25) ∧
    levelLoop 120 1 = (120, 1, false) ∧
    ((levelLoop 150 0).1 = (levelLoop (150 - xpForNext 0) (0 + 1)).1 ∧
      (levelLoop 150 0).2.1 = (levelLoop (150 - xpForNext 0) (0 + 1)).2.1 ∧
      (levelLoop 150 0).2.2 = true) :=
  ⟨c4_gain_and_level_curve.1 5 (by decide),
   c4_gain_and_level_curve.2.1 120 1 (by decide),
   c4_gain_and_level_curve.2.2.1 150 0 (by decide)⟩

/-- With sufficient fuel and entered at its own fuel, the loop result lands
strictly below the threshold of its final level. -/
lemma levelLoop_inv (xp level : Nat) :
    (levelLoop xp level).1 < xpForNext (levelLoop xp level).2.1 :=
  levelLoopF_inv xp xp level false (Nat.le_refl xp)

/-- C5 (confirmed): if the stored progression row satisfies
`0 ≤ xp < threshold(level)` before a message event, then whatever row is
stored after the handler's writes are applied satisfies it again. -/
theorem c5_xp_invariant (env : GuildEnv) (cfgOf : Option GuildConfig)
    (recOf : Option UserRec) (msg : Message) (now : Int) (rand : Nat)
    (hpre : ∀ r, recOf = some r → recInv r) :
    ∀ r', (messageCreate env cfgOf recOf msg now rand).writes.foldl applyWrite
      recOf = some r' → recInv r' := by
  intro r' h
  unfold messageCreate at h
  split at h
  · simp at h
    exact hpre r' h
  · split at h
    · simp at h
      exact hpre r' h
    · split at h
      · simp at h
        exact hpre r' h
      · split at h
        · simp at h
          exact hpre r' h
        · cases recOf with
          | none =>
            simp only [applyWrite, List.foldl_cons, List.foldl_nil,
              Option.some.injEq] at h
            subst h
            simpa [recInv] using levelLoop_inv _ _
          | some r =>
            simp only [applyWrite, List.foldl_cons, List.foldl_nil,
              Option.some.injEq] at h
            subst h
            simpa [recInv] using levelLoop_inv _ _

/-- C5 (witness): a row `(50, 0, 0)` satisfying the invariant still
satisfies it after a qualifying 20-XP message: the stored row becomes
`(70, 0, 100000)` with `70 < threshold(0) = 100`. -/
theorem c5_witness : recInv ⟨50, 0, 0⟩ ∧ recInv ⟨70, 0, 100000⟩ :=
  ⟨by norm_num [recInv, xpForNext],
   c5_xp_invariant envAll (some cfgEnabled) (some ⟨50, 0, 0⟩) msgPlain 100000 5
     (fun r hr => Option.some.inj hr ▸
       (by norm_num [recInv, xpForNext] : recInv ⟨50, 0, 0⟩))
     ⟨70, 0, 100000⟩ (by decide)⟩

/-- C6 (counterexample): with candidate set `["A"]` where `A` is not
manageable and selection `["A"]`, the unmanageable role `A` IS passed to
the add action — `toAdd` is the raw selection, refuting the claim that
unmanageable candidates are excluded from the add action. -/
theorem c6_counterexample :
    "A" ∈ (roleMenuSelect ["A"] (fun _ => false) (∅ : Finset String)
      ["A"]).toAdd ∧
    "A" ∉ manageableOf ["A"] (fun _ => false) := by
  constructor
  · simp [roleMenuSelect]
  · simp [manageableOf]

/-- C6 (amended): unmanageable candidates are silently excluded from the
remove action — every role in `toRemove` is a candidate the automation can
currently edit — but the add action receives the member's raw selection
unchanged, including any unmanageable candidates it contains (whose failure
is answered by the router's generic failure reply, not a crash). -/
theorem c6_amended_manageable_filter (roleIds : List String)
    (editable : String → Bool) (memberRoles : Finset String)
    (selected : List String) :
    (∀ r ∈ (roleMenuSelect roleIds editable memberRoles selected).toRemove,
      r ∈ roleIds ∧ editable r = true) ∧
    (roleMenuSelect roleIds editable memberRoles selected).toAdd = selected := by
  constructor
  · intro r hr
    simp only [roleMenuSelect, Finset.mem_filter, manageableOf,
      List.mem_filter] at hr
    exact hr.2
  · rfl

/-- C6 (witness): candidate set `["A", "B"]` with only `A` editable, member
holding `{A, B}`, selection `["B"]`: `A` lands in `toRemove` and is indeed
an editable candidate, and `toAdd` is exactly the selection. -/
theorem c6_witness :
    (("A" : String) ∈ ["A", "B"] ∧ (fun r => r == "A") "A" = true) ∧
    (roleMenuSelect ["A", "B"] (fun r => r == "A")
      (["A", "B"] : List String).toFinset ["B"]).toAdd = ["B"] :=
  ⟨(c6_amended_manageable_filter ["A", "B"] (fun r => r == "A")
      (["A", "B"] : List String).toFinset ["B"]).1 "A" (by decide),
   (c6_amended_manageable_filter ["A", "B"] (fun r => r == "A")
      (["A", "B"] : List String).toFinset ["B"]).2⟩

/-- C7 (confirmed): with an all-manageable candidate set and a selection
drawn from the candidates, after remove-then-add the member's roles
restricted to the candidate set are exactly the new selection, and the
roles held outside the candidate set are unchanged. -/
theorem c7_role_menu_convergence (roleIds : List String)
    (editable : String → Bool) (memberRoles : Finset String)
    (selected : List String)
    (hman : ∀ r ∈ roleIds, editable r = true)
    (hsel : ∀ r ∈ selected, r ∈ roleIds) :
    (menuFinalRoles roleIds editable memberRoles selected).filter
      (fun r => r ∈ roleIds) = selected.toFinset ∧
    (menuFinalRoles roleIds editable memberRoles selected).filter
      (fun r => r ∉ roleIds) = memberRoles.filter (fun r => r ∉ roleIds) := by
  constructor
  · ext r
    simp only [menuFinalRoles, roleMenuSelect, manageableOf, Finset.mem_filter,
      Finset.mem_union, Finset.mem_sdiff, List.mem_toFinset, List.mem_filter]
    constructor
    · rintro ⟨h1 | h2, hr⟩
      · exact absurd ⟨h1.1, hr, hman r hr⟩ h1.2
      · exact h2
    · intro hs
      exact ⟨Or.inr hs, hsel r hs⟩
  · ext r
    simp only [menuFinalRoles, roleMenuSelect, manageableOf, Finset.mem_filter,
      Finset.mem_union, Finset.mem_sdiff, List.mem_toFinset, List.mem_filter]
    constructor
    · rintro ⟨h1 | h2, hn⟩
      · exact ⟨h1.1, hn⟩
      · exact absurd (hsel r h2) hn
    · rintro ⟨hm, hn⟩
      refine ⟨Or.inl ⟨hm, ?_⟩, hn⟩
      rintro ⟨-, hr, -⟩
      exact hn hr

/-- C7 (witness): candidates `{A, B, C}` all manageable, member holding
`{A, B}`, selection `{B, C}`: the candidate-restricted result is exactly
`{B, C}` and roles outside the candidates are untouched. -/
theorem c7_witness :
    (∀ r ∈ (["B", "C"] : List String), r ∈ (["A", "B", "C"] : List String)) ∧
    ((menuFinalRoles ["A", "B", "C"] (fun _ => true)
        (["A", "B"] : List String).toFinset ["B", "C"]).filter
        (fun r => r ∈ (["A", "B", "C"] : List String)) =
      (["B", "C"] : List String).toFinset ∧
     (menuFinalRoles ["A", "B", "C"] (fun _ => true)
        (["A", "B"] : List String).toFinset ["B", "C"]).filter
        (fun r => r ∉ (["A", "B", "C"] : List String)) =
      ((["A", "B"] : List String).toFinset).filter
        (fun r => r ∉ (["A", "B", "C"] : List String))) :=
  ⟨by decide,
   c7_role_menu_convergence ["A", "B", "C"] (fun _ => true)
     (["A", "B"] : List String).toFinset ["B", "C"]
     (fun _ _ => rfl) (by decide)⟩

lemma jsTruthy_idem (x : Option String) : jsTruthy (jsTruthy x) = jsTruthy x := by
  cases x with
  | none => rfl
  | some s =>
    by_cases h : s = ""
    · simp [jsTruthy, h]
    · simp [jsTruthy, h]

lemma jsTruthy_some_ne (s : String) (h : s ≠ "") : jsTruthy (some s) = some s := by
  simp [jsTruthy, h]

/-- C8 (confirmed): each single-field config update is idempotent, and any
two updates to distinct fields compose without clobbering: the second
update keeps the first update's field value (non-empty channel/role/message
values assumed, as Discord identifiers and option strings are non-empty). -/
theorem c8_config_merge (s : Option GuildConfig) (w m r lg : String)
    (e : Bool) (hw : w ≠ "") (hm : m ≠ "") (hr : r ≠ "") (hl : lg ≠ "") :
    handleSetWelcome (some (handleSetWelcome s w m)) w m =
      handleSetWelcome s w m ∧
    handleSetAutorole (some (handleSetAutorole s r)) r =
      handleSetAutorole s r ∧
    handleToggleLeveling (some (handleToggleLeveling s e)) e =
      handleToggleLeveling s e ∧
    handleSetLog (some (handleSetLog s lg)) lg = handleSetLog s lg ∧
    ((handleSetAutorole (some (handleSetWelcome s w m)) r).welcome_channel_id
        = some w ∧
      (handleSetAutorole (some (handleSetWelcome s w m)) r).welcome_message
        = some m ∧
      (handleSetAutorole (some (handleSetWelcome s w m)) r).autorole_id
        = some r) ∧
    ((handleToggleLeveling (some (handleSetWelcome s w m)) e).welcome_channel_id
        = some w ∧
      (handleToggleLeveling (some (handleSetWelcome s w m)) e).welcome_message
        = some m ∧
      (handleToggleLeveling (some (handleSetWelcome s w m)) e).leveling_enabled
        = (if e then 1 else 0)) ∧
    ((handleSetLog (some (handleSetWelcome s w m)) lg).welcome_channel_id
        = some w ∧
      (handleSetLog (some (handleSetWelcome s w m)) lg).welcome_message
        = some m ∧
      (handleSetLog (some (handleSetWelcome s w m)) lg).log_channel_id
        = some lg) ∧
    ((handleSetWelcome (some (handleSetAutorole s r)) w m).autorole_id
        = some r ∧
      (handleSetWelcome (some (handleSetAutorole s r)) w m).welcome_channel_id
        = some w ∧
      (handleSetWelcome (some (handleSetAutorole s r)) w m).welcome_message
        = some m) ∧
    ((handleToggleLeveling (some (handleSetAutorole s r)) e).autorole_id
        = some r ∧
      (handleToggleLeveling (some (handleSetAutorole s r)) e).leveling_enabled
        = (if e then 1 else 0)) ∧
    ((handleSetLog (some (handleSetAutorole s r)) lg).autorole_id = some r ∧
      (handleSetLog (some (handleSetAutorole s r)) lg).log_channel_id
        = some lg) ∧
    ((handleSetWelcome (some (handleToggleLeveling s e)) w m).leveling_enabled
        = (if e then 1 else 0) ∧
      (handleSetWelcome (some (handleToggleLeveling s e)) w m).welcome_channel_id
        = some w ∧
      (handleSetWelcome (some (handleToggleLeveling s e)) w m).welcome_message
        = some m) ∧
    ((handleSetAutorole (some (handleToggleLeveling s e)) r).leveling_enabled
        = (if e then 1 else 0) ∧
      (handleSetAutorole (some (handleToggleLeveling s e)) r).autorole_id
        = some r) ∧
    ((handleSetLog (some (handleToggleLeveling s e)) lg).leveling_enabled
        = (if e then 1 else 0) ∧
      (handleSetLog (some (handleToggleLeveling s e)) lg).log_channel_id
        = some lg) ∧
    ((handleSetWelcome (some (handleSetLog s lg)) w m).log_channel_id
        = some lg ∧
      (handleSetWelcome (some (handleSetLog s lg)) w m).welcome_channel_id
        = some w ∧
      (handleSetWelcome (some (handleSetLog s lg)) w m).welcome_message
        = some m) ∧
    ((handleSetAutorole (some (handleSetLog s lg)) r).log_channel_id
        = some lg ∧
      (handleSetAutorole (some (handleSetLog s lg)) r).autorole_id
        = some r) ∧
    ((handleToggleLeveling (some (handleSetLog s lg)) e).log_channel_id
        = some lg ∧
      (handleToggleLeveling (some (handleSetLog s lg)) e).leveling_enabled
        = (if e then 1 else 0)) := by
  refine ⟨?_, ?_, ?_, ?_, ?_, ?_, ?_, ?_, ?_, ?_, ?_, ?_, ?_, ?_, ?_, ?_⟩ <;>
    simp [handleSetWelcome, handleSetAutorole, handleToggleLeveling,
      handleSetLog, cfgField, cfgLeveling, jsTruthy_idem, jsTruthy_some_ne,
      hw, hm, hr, hl]

/-- C8 (witness): on the empty store, setting the autorole twice equals
setting it once, and setting autorole `R` then log channel `L` leaves both
fields set. -/
theorem c8_witness :
    handleSetAutorole (some (handleSetAutorole none "R")) "R" =
      handleSetAutorole none "R" ∧
    (handleSetLog (some (handleSetAutorole none "R")) "L").autorole_id
      = some "R" ∧
    (handleSetLog (some (handleSetAutorole none "R")) "L").log_channel_id
      = some "L" := by
  obtain ⟨i1, i2, i3, i4, p1, p2, p3, p4, p5, p6, p7, p8, p9, p10, p11, p12⟩ :=
    c8_config_merge none "W" "M" "R" "L" false (by decide) (by decide)
      (by decide) (by decide)
  exact ⟨i2, p6.1, p6.2⟩

/-- C9 (counterexample): both the Onboarding Handler and the Automod block
path issue their audit log-channel send without its own failure
containment (no `.catch`), refuting the claim that every outbound action's
failure is contained at the point of that action. -/
theorem c9_counterexample :
    (guildMemberAddActions envAll (some cfgFull)).all (fun a => a.contained)
      = false ∧
    ((messageCreate envAll (some cfgFull) none msgInvite 100000 0).actions.all
      (fun a => a.contained)) = false := by
  decide

/-- C9 (amended): every outbound action of the Onboarding Handler and the
message handler except the audit log-channel send carries its own failure
containment (`.catch(() => {})`), and the uncontained log send can only be
the final action of its handler, so its failure blocks no other action. -/
theorem c9_amended_containment (env : GuildEnv) (cfgOf : Option GuildConfig)
    (recOf : Option UserRec) (msg : Message) (now : Int) (rand : Nat) :
    (guildMemberAddActions env cfgOf).all
      (fun a => a.contained || a.kind == ActionKind.sendLog) = true ∧
    (guildMemberAddActions env cfgOf).dropLast.all (fun a => a.contained)
      = true ∧
    (messageCreate env cfgOf recOf msg now rand).actions.all
      (fun a => a.contained || a.kind == ActionKind.sendLog) = true ∧
    (messageCreate env cfgOf recOf msg now rand).actions.dropLast.all
      (fun a => a.contained) = true := by
  refine ⟨?_, ?_, ?_, ?_⟩
  · simp only [guildMemberAddActions]
    repeat' split
    all_goals decide
  · simp only [guildMemberAddActions]
    repeat' split
    all_goals decide
  · unfold messageCreate
    repeat' split
    all_goals first | decide | simp
  · unfold messageCreate
    repeat' split
    all_goals first | decide | simp

/-- C10 (confirmed): a message from a bot author, or one with no associated
guild, is ignored outright: the handler issues no action and performs no
store write. -/
theorem c10_bot_or_dm_noop (env : GuildEnv) (cfgOf : Option GuildConfig)
    (recOf : Option UserRec) (msg : Message) (now : Int) (rand : Nat)
    (h : msg.authorIsBot = true ∨ msg.guildId = none) :
    messageCreate env cfgOf recOf msg now rand = ⟨[], []⟩ := by
  unfold messageCreate
  rcases h with h | h <;> simp [h]

/-- C10 (witness): a bot-authored guild message is fully ignored. -/
theorem c10_witness :
    messageCreate envAll (some cfgFull) none
      ⟨some "g", true, "u", "discord.gg/abc", 0, false⟩ 100000 0 = ⟨[], []⟩ :=
  c10_bot_or_dm_noop envAll (some cfgFull) none _ 100000 0 (Or.inl rfl)

end Mee6Lite
